import Mathlib

/-!
Verification of the pynwjs event-transport core: a shallow embedding of
`src/pynwjs/__init__.py` and `src/pynwjs/nwjs.py`, together with a model of
the JSON wire codec (`json.dumps` / `json.loads` restricted to the values the
library exchanges: null, booleans, integers, strings, arrays, objects).
-/

namespace PyNWJS

/- JSON values exchanged on the wire.  Mirrors Python values that
`json.dumps` accepts with default settings (floats are outside the model;
the library itself never constructs one). -/
mutual
inductive Json where
  | null : Json
  | bool : Bool → Json
  | num : Int → Json
  | str : String → Json
  | arr : JsonList → Json
  | obj : JsonObj → Json
  deriving DecidableEq

inductive JsonList where
  | nil : JsonList
  | cons : Json → JsonList → JsonList
  deriving DecidableEq

inductive JsonObj where
  | nil : JsonObj
  | cons : String → Json → JsonObj → JsonObj
  deriving DecidableEq
end

/-- Whitespace accepted between JSON tokens (as in Python's `json.loads`). -/
def isWsChar (c : Char) : Bool := c = ' ' || c = '\t' || c = '\n' || c = '\r'

def digitChar (n : Nat) : Char := Char.ofNat (48 + n)

def isDigitChar (c : Char) : Bool := 48 ≤ c.toNat && c.toNat ≤ 57

/-- Lower-case hex digit, as emitted by `json.dumps` in `\uXXXX` escapes. -/
def hexChar (n : Nat) : Char := if n < 10 then Char.ofNat (48 + n) else Char.ofNat (87 + n)

def toHex4 (n : Nat) : List Char :=
  [hexChar (n / 4096 % 16), hexChar (n / 256 % 16), hexChar (n / 16 % 16), hexChar (n % 16)]

/-- How `json.dumps` (default `ensure_ascii=True`) renders one character of a
string: short escapes for `"` `\` and common control characters, `\uXXXX` for
other control and all non-ASCII characters, a surrogate pair beyond U+FFFF. -/
def escapeChar (c : Char) : List Char :=
  if c = '\"' then ['\\', '\"']
  else if c = '\\' then ['\\', '\\']
  else if c = Char.ofNat 8 then ['\\', 'b']
  else if c = Char.ofNat 12 then ['\\', 'f']
  else if c = '\n' then ['\\', 'n']
  else if c = Char.ofNat 13 then ['\\', 'r']
  else if c = '\t' then ['\\', 't']
  else if c.toNat < 32 then '\\' :: 'u' :: toHex4 c.toNat
  else if c.toNat < 127 then [c]
  else if c.toNat < 65536 then '\\' :: 'u' :: toHex4 c.toNat
  else
    ('\\' :: 'u' :: toHex4 (55296 + (c.toNat - 65536) / 1024)) ++
    ('\\' :: 'u' :: toHex4 (56320 + (c.toNat - 65536) % 1024))

def escBody : List Char → List Char
  | [] => []
  | c :: r => escapeChar c ++ escBody r

/-- A JSON string literal: quote, escaped body, quote. -/
def strQuote (s : String) : List Char := '\"' :: (escBody s.data ++ ['\"'])

/-- Decimal digits, most significant first, with explicit recursion depth
(so that the definition is structural and computes inside the kernel). -/
def natDigitsF (fuel n : Nat) : List Char :=
  match fuel with
  | 0 => []
  | f + 1 => if n < 10 then [digitChar n] else natDigitsF f (n / 10) ++ [digitChar (n % 10)]

/-- Decimal digits of a natural number, most significant first. -/
def natDigits (n : Nat) : List Char := natDigitsF (n + 1) n

theorem natDigitsF_stable (n : Nat) : ∀ f1 f2, n < f1 → n < f2 →
    natDigitsF f1 n = natDigitsF f2 n := by
  induction n using Nat.strong_induction_on with
  | _ n ih =>
    intro f1 f2 h1 h2
    match f1, f2 with
    | a + 1, b + 1 =>
      rw [natDigitsF, natDigitsF]
      split
      · rfl
      · rw [ih (n / 10) (by omega) a b (by omega) (by omega)]

/-- The recursion equation of the original Python-side rendering. -/
theorem natDigits_unfold (n : Nat) : natDigits n =
    if n < 10 then [digitChar n] else natDigits (n / 10) ++ [digitChar (n % 10)] := by
  rw [natDigits, natDigitsF]
  split
  · rfl
  · rw [natDigitsF_stable (n / 10) n (n / 10 + 1) (by omega) (by omega)]
    rfl

/-- Rendering of a Python `int` by `json.dumps`. -/
def intChars (n : Int) : List Char :=
  if n < 0 then '-' :: natDigits n.natAbs else natDigits n.toNat

/- `json.dumps` with default separators `", "` and `": "`, restricted to the
modelled value type. -/
mutual
def dumps (j : Json) : List Char :=
  match j with
  | .null => "null".data
  | .bool true => "true".data
  | .bool false => "false".data
  | .num n => intChars n
  | .str s => strQuote s
  | .arr .nil => ['[', ']']
  | .arr (.cons x l) => '[' :: (dumps x ++ (dumpsArrTail l ++ [']']))
  | .obj .nil => ['\x7b', '\x7d']
  | .obj (.cons k v o) =>
    '\x7b' :: ((strQuote k ++ (':' :: ' ' :: dumps v)) ++ (dumpsObjTail o ++ ['\x7d']))
termination_by structural j

def dumpsArrTail (l : JsonList) : List Char :=
  match l with
  | .nil => []
  | .cons x l' => ',' :: ' ' :: (dumps x ++ dumpsArrTail l')
termination_by structural l

def dumpsObjTail (o : JsonObj) : List Char :=
  match o with
  | .nil => []
  | .cons k v o' => ',' :: ' ' :: ((strQuote k ++ (':' :: ' ' :: dumps v)) ++ dumpsObjTail o')
termination_by structural o
end

/-- One `"key": value` member, as `json.dumps` renders it. -/
def dumpsKV (k : String) (v : Json) : List Char := strQuote k ++ (':' :: ' ' :: dumps v)

theorem dumps_obj_cons (k : String) (v : Json) (o : JsonObj) :
    dumps (.obj (.cons k v o)) = '\x7b' :: (dumpsKV k v ++ (dumpsObjTail o ++ ['\x7d'])) :=
  rfl

theorem dumpsObjTail_cons (k : String) (v : Json) (o : JsonObj) :
    dumpsObjTail (.cons k v o) = ',' :: ' ' :: (dumpsKV k v ++ dumpsObjTail o) := rfl

/-! ## Parser: model of `json.loads` on the modelled value type -/

def skipWs : List Char → List Char
  | [] => []
  | c :: r => if isWsChar c then skipWs r else c :: r

def hexVal (c : Char) : Option Nat :=
  if 48 ≤ c.toNat ∧ c.toNat ≤ 57 then some (c.toNat - 48)
  else if 97 ≤ c.toNat ∧ c.toNat ≤ 102 then some (c.toNat - 87)
  else if 65 ≤ c.toNat ∧ c.toNat ≤ 70 then some (c.toNat - 55)
  else none

/-- Value of a four-hex-digit escape. -/
def hex4 (h1 h2 h3 h4 : Char) : Option Nat :=
  match hexVal h1, hexVal h2, hexVal h3, hexVal h4 with
  | some a, some b, some c, some d => some (a * 4096 + b * 256 + c * 16 + d)
  | _, _, _, _ => none

/-- Single-character escapes accepted after a backslash. -/
def escMap (c : Char) : Option Char :=
  if c = '\"' then some '\"'
  else if c = '\\' then some '\\'
  else if c = '/' then some '/'
  else if c = 'b' then some (Char.ofNat 8)
  else if c = 'f' then some (Char.ofNat 12)
  else if c = 'n' then some '\n'
  else if c = 'r' then some (Char.ofNat 13)
  else if c = 't' then some '\t'
  else none

/-- Body of a JSON string literal (after the opening quote), strict mode:
raw control characters are rejected; `\uXXXX` escapes are decoded, with a
high/low surrogate escape pair combined into one character.  (A lone
surrogate escape is rejected: the model's characters are unicode scalar
values.)  Returns the decoded characters and the input after the closing
quote. -/
def parseStringChars : Nat → List Char → Option (List Char × List Char)
  | 0, _ => none
  | _ + 1, [] => none
  | fuel + 1, c :: rest =>
    if c = '\"' then some ([], rest)
    else if c = '\\' then
      match rest with
      | 'u' :: h1 :: h2 :: h3 :: h4 :: rest1 =>
        match hex4 h1 h2 h3 h4 with
        | none => none
        | some n =>
          if n < 55296 ∨ 57344 ≤ n then
            (parseStringChars fuel rest1).map (fun p => (Char.ofNat n :: p.1, p.2))
          else if n < 56320 then
            match rest1 with
            | '\\' :: 'u' :: g1 :: g2 :: g3 :: g4 :: rest2 =>
              match hex4 g1 g2 g3 g4 with
              | some m =>
                if 56320 ≤ m ∧ m < 57344 then
                  (parseStringChars fuel rest2).map
                    (fun p => (Char.ofNat (65536 + (n - 55296) * 1024 + (m - 56320)) :: p.1, p.2))
                else none
              | none => none
            | _ => none
          else none
      | e :: rest1 =>
        match escMap e with
        | some d => (parseStringChars fuel rest1).map (fun p => (d :: p.1, p.2))
        | none => none
      | [] => none
    else if c.toNat < 32 then none
    else (parseStringChars fuel rest).map (fun p => (c :: p.1, p.2))

def digitsVal (l : List Char) : Nat := l.foldl (fun a c => a * 10 + (c.toNat - 48)) 0

def parseNatNum (cs : List Char) : Option (Nat × List Char) :=
  let ds := cs.takeWhile isDigitChar
  if ds.isEmpty then none else some (digitsVal ds, cs.dropWhile isDigitChar)

mutual
def parseValue (fuel0 : Nat) (cs0 : List Char) : Option (Json × List Char) :=
  match fuel0, cs0 with
  | 0, _ => none
  | _ + 1, [] => none
  | fuel + 1, c :: cs =>
    if c = 'n' then
      match cs with | 'u' :: 'l' :: 'l' :: r => some (.null, r) | _ => none
    else if c = 't' then
      match cs with | 'r' :: 'u' :: 'e' :: r => some (.bool true, r) | _ => none
    else if c = 'f' then
      match cs with | 'a' :: 'l' :: 's' :: 'e' :: r => some (.bool false, r) | _ => none
    else if c = '\"' then
      (parseStringChars (cs.length + 1) cs).map (fun p => (.str (String.mk p.1), p.2))
    else if c = '[' then
      let cs1 := skipWs cs
      if cs1.head? = some ']' then some (.arr .nil, cs1.tail)
      else
        match parseValue fuel cs1 with
        | none => none
        | some (v, r1) =>
          match parseArrTail fuel (skipWs r1) with
          | none => none
          | some (l, r2) => some (.arr (.cons v l), r2)
    else if c = '\x7b' then
      let cs1 := skipWs cs
      if cs1.head? = some '\x7d' then some (.obj .nil, cs1.tail)
      else
        match parseMember fuel cs1 with
        | none => none
        | some (k, v, r1) =>
          match parseObjTail fuel (skipWs r1) with
          | none => none
          | some (o, r2) => some (.obj (.cons k v o), r2)
    else if c = '-' then (parseNatNum cs).map (fun p => (.num (-(p.1 : Int)), p.2))
    else if isDigitChar c then (parseNatNum (c :: cs)).map (fun p => (.num (p.1 : Int), p.2))
    else none
termination_by structural fuel0

def parseMember (fuel0 : Nat) (cs0 : List Char) : Option (String × Json × List Char) :=
  match fuel0, cs0 with
  | 0, _ => none
  | fuel + 1, cs =>
    match cs with
    | '\"' :: r =>
      match parseStringChars (r.length + 1) r with
      | none => none
      | some (k, r1) =>
        match skipWs r1 with
        | ':' :: r2 =>
          match parseValue fuel (skipWs r2) with
          | none => none
          | some (v, r3) => some (String.mk k, v, r3)
        | _ => none
    | _ => none
termination_by structural fuel0

def parseArrTail (fuel0 : Nat) (cs0 : List Char) : Option (JsonList × List Char) :=
  match fuel0, cs0 with
  | 0, _ => none
  | fuel + 1, cs =>
    match cs with
    | ']' :: r => some (.nil, r)
    | ',' :: r =>
      match parseValue fuel (skipWs r) with
      | none => none
      | some (v, r1) =>
        match parseArrTail fuel (skipWs r1) with
        | none => none
        | some (l, r2) => some (.cons v l, r2)
    | _ => none
termination_by structural fuel0

def parseObjTail (fuel0 : Nat) (cs0 : List Char) : Option (JsonObj × List Char) :=
  match fuel0, cs0 with
  | 0, _ => none
  | fuel + 1, cs =>
    match cs with
    | '\x7d' :: r => some (.nil, r)
    | ',' :: r =>
      match parseMember fuel (skipWs r) with
      | none => none
      | some (k, v, r1) =>
        match parseObjTail fuel (skipWs r1) with
        | none => none
        | some (o, r2) => some (.cons k v o, r2)
    | _ => none
termination_by structural fuel0
end

/-- `json.loads` on one line: parse a value surrounded by whitespace only. -/
def loads (line : List Char) : Option Json :=
  match parseValue (line.length + 1) (skipWs line) with
  | some (v, rest) => if (skipWs rest).isEmpty then some v else none
  | none => none

/-! ## The frame codec used by `NWJS._write` and `NWJS._event_handler` -/

/-- The object `{'event': event, 'payload': data}` built in `NWJS._write`. -/
def frameJson (event : String) (payload : Json) : Json :=
  .obj (.cons "event" (.str event) (.cons "payload" payload .nil))

/-- The frame written by `NWJS._write`:
`json.dumps({'event': event, 'payload': data}) + '\n'`. -/
def encodeFrame (event : String) (payload : Json) : List Char :=
  dumps (frameJson event payload) ++ ['\n']

/-- Python `dict.get` on a parsed object (keys are unique in any object that
models an actual Python dict, so first match is the match). -/
def objGet : JsonObj → String → Option Json
  | .nil, _ => none
  | .cons k v o, key => if k = key then some v else objGet o key

/-- The decode side of `NWJS._event_handler`: `json.loads(line)` followed by
`data.get('event')` and `data.get('payload')`.  `none` models an exception
(malformed JSON, or `.get` on a non-dict value). -/
def decodeLine (line : List Char) : Option (Option Json × Option Json) :=
  match loads line with
  | some (.obj o) => some (objGet o "event", objGet o "payload")
  | _ => none

/-- `true` iff the key does not occur in the object. -/
def keyNotIn (k : String) : JsonObj → Bool
  | .nil => true
  | .cons k' _ o => !(k == k') && keyNotIn k o

/- Well-formedness: every object has pairwise-distinct keys, as any value
originating from a Python dict does. -/
mutual
def jsonWf (j : Json) : Bool :=
  match j with
  | .null => true
  | .bool _ => true
  | .num _ => true
  | .str _ => true
  | .arr l => listWf l
  | .obj o => objWf o
termination_by structural j

def listWf (l : JsonList) : Bool :=
  match l with
  | .nil => true
  | .cons x l' => jsonWf x && listWf l'
termination_by structural l

def objWf (o : JsonObj) : Bool :=
  match o with
  | .nil => true
  | .cons k v o' => keyNotIn k o' && jsonWf v && objWf o'
termination_by structural o
end

/-! ## Round-trip of the codec -/

theorem skipWs_cons {c : Char} (h : isWsChar c = false) (r : List Char) :
    skipWs (c :: r) = c :: r := by simp [skipWs, h]

/-- `true` iff the input does not begin with a decimal digit (so that number
parsing cannot run past a serialized number into it). -/
def noDigitHead : List Char → Bool
  | [] => true
  | c :: _ => !isDigitChar c

theorem char_toNat_valid (c : Char) :
    c.toNat < 55296 ∨ (57344 ≤ c.toNat ∧ c.toNat < 1114112) := by
  rcases c.valid with h | ⟨h1, h2⟩
  · exact Or.inl h
  · exact Or.inr ⟨h1, h2⟩

theorem hexVal_hexChar (d : Nat) (h : d < 16) : hexVal (hexChar d) = some d := by
  interval_cases d <;> decide

theorem hex4_toHex4 (n : Nat) (h : n < 65536) :
    hex4 (hexChar (n / 4096 % 16)) (hexChar (n / 256 % 16))
      (hexChar (n / 16 % 16)) (hexChar (n % 16)) = some n := by
  have e : n / 4096 % 16 * 4096 + n / 256 % 16 * 256 + n / 16 % 16 * 16 + n % 16 = n := by
    omega
  simp only [hex4, hexVal_hexChar _ (show n / 4096 % 16 < 16 by omega),
    hexVal_hexChar _ (show n / 256 % 16 < 16 by omega),
    hexVal_hexChar _ (show n / 16 % 16 < 16 by omega),
    hexVal_hexChar _ (show n % 16 < 16 by omega), e]

theorem parse_u_single (n : Nat) (f : Nat) (X : List Char)
    (hn : n < 55296 ∨ 57344 ≤ n) (hn2 : n < 65536) :
    parseStringChars (f + 1) ('\\' :: 'u' :: (toHex4 n ++ X)) =
    (parseStringChars f X).map (fun p => (Char.ofNat n :: p.1, p.2)) := by
  have hval := hex4_toHex4 n hn2
  simp [toHex4, parseStringChars, hval, hn]

theorem parse_u_pair (n m : Nat) (f : Nat) (X : List Char)
    (hn1 : 55296 ≤ n) (hn2 : n < 56320) (hm1 : 56320 ≤ m) (hm2 : m < 57344) :
    parseStringChars (f + 1) ('\\' :: 'u' :: (toHex4 n ++ ('\\' :: 'u' :: (toHex4 m ++ X)))) =
    (parseStringChars f X).map
      (fun p => (Char.ofNat (65536 + (n - 55296) * 1024 + (m - 56320)) :: p.1, p.2)) := by
  have hvaln := hex4_toHex4 n (by omega)
  have hvalm := hex4_toHex4 m (by omega)
  have hc1 : ¬(n < 55296 ∨ 57344 ≤ n) := by omega
  have hc3 : 56320 ≤ m ∧ m < 57344 := ⟨hm1, hm2⟩
  simp [toHex4, parseStringChars, hvaln, hvalm, hc1, hn2, hc3]

theorem parseStringChars_escBody (l : List Char) : ∀ (fuel : Nat) (rest : List Char),
    l.length < fuel →
    parseStringChars fuel (escBody l ++ ('\"' :: rest)) = some (l, rest) := by
  induction l with
  | nil =>
    intro fuel rest h
    cases fuel with
    | zero => omega
    | succ f => simp [escBody, parseStringChars]
  | cons c l ih =>
    intro fuel rest h
    cases fuel with
    | zero => omega
    | succ f =>
    have hfl : l.length < f := by simp at h; omega
    have hih := ih f rest hfl
    by_cases h1 : c = '\"'
    · subst h1
      simp [escBody, escapeChar, parseStringChars, escMap, hih]
    · by_cases h2 : c = '\\'
      · subst h2
        simp [escBody, escapeChar, parseStringChars, escMap, hih]
      · by_cases h3 : c = Char.ofNat 8
        · subst h3
          simp [escBody, escapeChar, parseStringChars, escMap, hih]
        · by_cases h4 : c = Char.ofNat 12
          · subst h4
            simp [escBody, escapeChar, parseStringChars, escMap, hih]
          · by_cases h5 : c = '\n'
            · subst h5
              simp [escBody, escapeChar, parseStringChars, escMap, hih]
            · by_cases h6 : c = Char.ofNat 13
              · subst h6
                simp [escBody, escapeChar, parseStringChars, escMap, hih]
              · by_cases h7 : c = '\t'
                · subst h7
                  simp [escBody, escapeChar, parseStringChars, escMap, hih]
                · by_cases h8 : c.toNat < 32
                  · have hesc : escapeChar c = '\\' :: 'u' :: toHex4 c.toNat := by
                      simp [escapeChar, h1, h2, h3, h4, h5, h6, h7, h8]
                    simp only [escBody, hesc, List.cons_append, List.append_assoc]
                    rw [parse_u_single c.toNat f _ (Or.inl (by omega)) (by omega), hih]
                    simp [Char.ofNat_toNat]
                  · by_cases h9 : c.toNat < 127
                    · simp [escBody, escapeChar, h1, h2, h3, h4, h5, h6, h7, h8, h9,
                        parseStringChars, hih]
                    · by_cases h10 : c.toNat < 65536
                      · have hcond : c.toNat < 55296 ∨ 57344 ≤ c.toNat := by
                          rcases char_toNat_valid c with h | ⟨ha, _⟩
                          · exact Or.inl h
                          · exact Or.inr ha
                        have hesc : escapeChar c = '\\' :: 'u' :: toHex4 c.toNat := by
                          simp [escapeChar, h1, h2, h3, h4, h5, h6, h7, h8, h9, h10]
                        simp only [escBody, hesc, List.cons_append, List.append_assoc]
                        rw [parse_u_single c.toNat f _ hcond (by omega), hih]
                        simp [Char.ofNat_toNat]
                      · have hcv : c.toNat < 1114112 := by
                          rcases char_toNat_valid c with h | ⟨_, hb⟩
                          · omega
                          · exact hb
                        have hesc : escapeChar c =
                            '\\' :: 'u' :: (toHex4 (55296 + (c.toNat - 65536) / 1024) ++
                              ('\\' :: 'u' :: (toHex4 (56320 + (c.toNat - 65536) % 1024) ++ []))) := by
                          simp [escapeChar, h1, h2, h3, h4, h5, h6, h7, h8, h9, h10]
                        have harith : 65536 + (55296 + (c.toNat - 65536) / 1024 - 55296) * 1024 +
                            (56320 + (c.toNat - 65536) % 1024 - 56320) = c.toNat := by omega
                        simp only [escBody, hesc, List.cons_append, List.append_assoc,
                          List.nil_append]
                        rw [parse_u_pair _ _ f _ (by omega) (by omega) (by omega) (by omega), hih]
                        have harith2 : 65536 + (c.toNat - 65536) / 1024 * 1024 +
                            (c.toNat - 65536) % 1024 = c.toNat := by omega
                        simp [harith, Char.ofNat_toNat]
                        rw [harith2, Char.ofNat_toNat]

theorem natDigits_ne_nil (n : Nat) : natDigits n ≠ [] := by
  rw [natDigits_unfold]
  split <;> simp

theorem digitChar_isDigit (d : Nat) (h : d < 10) : isDigitChar (digitChar d) = true := by
  interval_cases d <;> decide

theorem digitChar_toNat (d : Nat) (h : d < 10) : (digitChar d).toNat = 48 + d := by
  interval_cases d <;> decide

theorem natDigits_digits (n : Nat) : ∀ c ∈ natDigits n, isDigitChar c = true := by
  induction n using Nat.strong_induction_on with
  | _ n ih =>
    rw [natDigits_unfold]
    split
    · intro c hc
      simp at hc
      subst hc
      exact digitChar_isDigit n (by omega)
    · intro c hc
      rcases List.mem_append.mp hc with h | h
      · exact ih (n / 10) (by omega) c h
      · simp at h
        subst h
        exact digitChar_isDigit _ (by omega)

theorem digitsVal_append_one (l : List Char) (c : Char) :
    digitsVal (l ++ [c]) = digitsVal l * 10 + (c.toNat - 48) := by
  simp [digitsVal, List.foldl_append]

theorem digitsVal_natDigits (n : Nat) : digitsVal (natDigits n) = n := by
  induction n using Nat.strong_induction_on with
  | _ n ih =>
    rw [natDigits_unfold]
    split
    · simp [digitsVal, digitChar_toNat n (by omega)]
    · rw [digitsVal_append_one, ih (n / 10) (by omega), digitChar_toNat _ (by omega)]
      omega

theorem takeWhile_digits (l r : List Char) (hl : ∀ c ∈ l, isDigitChar c = true)
    (hr : noDigitHead r = true) :
    (l ++ r).takeWhile isDigitChar = l ∧ (l ++ r).dropWhile isDigitChar = r := by
  induction l with
  | nil =>
    cases r with
    | nil => simp
    | cons c r' =>
      simp [noDigitHead] at hr
      simp [List.takeWhile, List.dropWhile, hr]
  | cons c l' ih =>
    have hc := hl c (by simp)
    have ih' := ih (fun d hd => hl d (by simp [hd]))
    simp [List.takeWhile, List.dropWhile, hc, ih'.1, ih'.2]

theorem parseNatNum_natDigits (n : Nat) (r : List Char) (hr : noDigitHead r = true) :
    parseNatNum (natDigits n ++ r) = some (n, r) := by
  obtain ⟨ht, hd⟩ := takeWhile_digits (natDigits n) r (natDigits_digits n) hr
  simp only [parseNatNum, ht, hd]
  rw [if_neg (by simp [natDigits_ne_nil n])]
  rw [digitsVal_natDigits]

/-- A decimal digit is none of the characters the value parser tests first,
nor whitespace, nor a closing delimiter. -/
theorem digit_facts {c : Char} (h : isDigitChar c = true) :
    isWsChar c = false ∧ c ≠ ']' ∧ c ≠ '\x7d' ∧ c ≠ ',' ∧ c ≠ 'n' ∧ c ≠ 't' ∧
    c ≠ 'f' ∧ c ≠ '\"' ∧ c ≠ '[' ∧ c ≠ '\x7b' ∧ c ≠ '-' := by
  have hd : ∀ d : Char, isDigitChar d = false → c ≠ d := by
    intro d hdf he
    rw [he] at h
    exact absurd (h.symm.trans hdf) (by decide)
  have hw : isWsChar c = false := by
    cases hw : isWsChar c with
    | false => rfl
    | true =>
      simp only [isWsChar, Bool.or_eq_true, decide_eq_true_eq] at hw
      rcases hw with ((rfl | rfl) | rfl) | rfl <;> simp [isDigitChar] at h
  exact ⟨hw, hd ']' (by decide), hd '\x7d' (by decide), hd ',' (by decide),
    hd 'n' (by decide), hd 't' (by decide), hd 'f' (by decide), hd '\"' (by decide),
    hd '[' (by decide), hd '\x7b' (by decide), hd '-' (by decide)⟩

/- Fuel measure for the parser: enough fuel to parse a serialized value. -/
mutual
def jsize (j : Json) : Nat :=
  match j with
  | .null => 1
  | .bool _ => 1
  | .num _ => 1
  | .str _ => 1
  | .arr l => 1 + lsize l
  | .obj o => 1 + osize o
termination_by structural j

def lsize (l : JsonList) : Nat :=
  match l with
  | .nil => 0
  | .cons x l' => 1 + jsize x + lsize l'
termination_by structural l

def osize (o : JsonObj) : Nat :=
  match o with
  | .nil => 0
  | .cons _ v o' => 1 + jsize v + osize o'
termination_by structural o
end

theorem jsize_pos (j : Json) : 1 ≤ jsize j := by
  cases j <;> simp [jsize]

mutual
theorem jsize_le (j : Json) : jsize j ≤ (dumps j).length := by
  cases j with
  | null => simp [jsize, dumps]
  | bool b => cases b <;> simp [jsize, dumps]
  | num n =>
    simp only [jsize, dumps, intChars]
    split
    · simp
    · have := List.length_pos.mpr (natDigits_ne_nil n.toNat)
      omega
  | str s => simp [jsize, dumps, strQuote]
  | arr l =>
    cases l with
    | nil => simp [jsize, lsize, dumps]
    | cons x l' =>
      have h1 := jsize_le x
      have h2 := lsize_le l'
      simp only [jsize, lsize, dumps, List.length_cons, List.length_append]
      omega
  | obj o =>
    cases o with
    | nil => simp [jsize, osize, dumps]
    | cons k v o' =>
      have h1 := kvsize_le k v
      have h2 := osize_le o'
      simp only [jsize, osize, dumps_obj_cons, List.length_cons, List.length_append]
      omega

theorem kvsize_le (k : String) (v : Json) : jsize v ≤ (dumpsKV k v).length := by
  have h := jsize_le v
  simp only [dumpsKV, List.length_append, List.length_cons]
  omega

theorem lsize_le (l : JsonList) : lsize l ≤ (dumpsArrTail l).length := by
  cases l with
  | nil => simp [lsize, dumpsArrTail]
  | cons x l' =>
    have h1 := jsize_le x
    have h2 := lsize_le l'
    simp only [lsize, dumpsArrTail, List.length_cons, List.length_append]
    omega

theorem osize_le (o : JsonObj) : osize o ≤ (dumpsObjTail o).length := by
  cases o with
  | nil => simp [osize, dumpsObjTail]
  | cons k v o' =>
    have h1 := kvsize_le k v
    have h2 := osize_le o'
    simp only [osize, dumpsObjTail_cons, List.length_cons, List.length_append]
    omega
end

/-- The first character of any serialized value: never whitespace and never a
closing delimiter. -/
theorem dumps_head_facts (j : Json) :
    ∃ c r, dumps j = c :: r ∧ isWsChar c = false ∧ c ≠ ']' ∧ c ≠ '\x7d' := by
  cases j with
  | null => exact ⟨'n', ['u', 'l', 'l'], by simp [dumps], by decide, by decide, by decide⟩
  | bool b =>
    cases b with
    | true => exact ⟨'t', ['r', 'u', 'e'], by simp [dumps], by decide, by decide, by decide⟩
    | false =>
      exact ⟨'f', ['a', 'l', 's', 'e'], by simp [dumps], by decide, by decide, by decide⟩
  | num n =>
    by_cases hn : n < 0
    · exact ⟨'-', natDigits n.natAbs, by simp [dumps, intChars, hn], by decide, by decide,
        by decide⟩
    · cases hnd : natDigits n.toNat with
      | nil => exact absurd hnd (natDigits_ne_nil _)
      | cons c0 r0 =>
        have hdig : isDigitChar c0 = true :=
          natDigits_digits n.toNat c0 (by rw [hnd]; simp)
        obtain ⟨hw, hrb, hcb, _⟩ := digit_facts hdig
        exact ⟨c0, r0, by simp [dumps, intChars, hn, hnd], hw, hrb, hcb⟩
  | str s =>
    exact ⟨'\"', escBody s.data ++ ['\"'], by simp [dumps, strQuote], by decide, by decide,
      by decide⟩
  | arr l =>
    cases l with
    | nil => exact ⟨'[', [']'], by simp [dumps], by decide, by decide, by decide⟩
    | cons x l' =>
      exact ⟨'[', dumps x ++ (dumpsArrTail l' ++ [']']), by simp [dumps], by decide,
        by decide, by decide⟩
  | obj o =>
    cases o with
    | nil => exact ⟨'\x7b', ['\x7d'], by simp [dumps], by decide, by decide, by decide⟩
    | cons k v o' =>
      exact ⟨'\x7b', dumpsKV k v ++ (dumpsObjTail o' ++ ['\x7d']), by rw [dumps_obj_cons],
        by decide, by decide, by decide⟩

theorem skipWs_dumps (j : Json) (R : List Char) :
    skipWs (dumps j ++ R) = dumps j ++ R := by
  obtain ⟨c, r, he, hw, _, _⟩ := dumps_head_facts j
  rw [he, List.cons_append, skipWs_cons hw]

theorem dumps_head_ne_rb (j : Json) (R : List Char) :
    ¬((dumps j ++ R).head? = some ']') := by
  obtain ⟨c, r, he, _, hb, _⟩ := dumps_head_facts j
  rw [he]
  simp [hb]

theorem dumps_head_ne_cb (j : Json) (R : List Char) :
    ¬((dumps j ++ R).head? = some '\x7d') := by
  obtain ⟨c, r, he, _, _, hb⟩ := dumps_head_facts j
  rw [he]
  simp [hb]

theorem noDigit_arrTail (l : JsonList) (R : List Char) :
    noDigitHead (dumpsArrTail l ++ (']' :: R)) = true := by
  cases l <;> simp [dumpsArrTail, noDigitHead, isDigitChar]

theorem noDigit_objTail (o : JsonObj) (R : List Char) :
    noDigitHead (dumpsObjTail o ++ ('\x7d' :: R)) = true := by
  cases o <;> simp [dumpsObjTail, noDigitHead, isDigitChar]

set_option maxHeartbeats 1000000 in
theorem escapeChar_len (c : Char) : 1 ≤ (escapeChar c).length := by
  unfold escapeChar
  split_ifs <;> simp [toHex4]

theorem escBody_len (l : List Char) : l.length ≤ (escBody l).length := by
  induction l with
  | nil => simp [escBody]
  | cons c l ih =>
    have := escapeChar_len c
    simp only [escBody, List.length_cons, List.length_append]
    omega

theorem skipWs_arrTail (l : JsonList) (R : List Char) :
    skipWs (dumpsArrTail l ++ (']' :: R)) = dumpsArrTail l ++ (']' :: R) := by
  cases l <;> simp [dumpsArrTail, skipWs, isWsChar]

theorem skipWs_objTail (o : JsonObj) (R : List Char) :
    skipWs (dumpsObjTail o ++ ('\x7d' :: R)) = dumpsObjTail o ++ ('\x7d' :: R) := by
  cases o <;> simp [dumpsObjTail, skipWs, isWsChar]

theorem dumpsKV_append (k : String) (v : Json) (R : List Char) :
    dumpsKV k v ++ R =
    '\"' :: (escBody k.data ++ ('\"' :: ':' :: ' ' :: (dumps v ++ R))) := by
  simp [dumpsKV, strQuote, List.append_assoc, List.cons_append]

mutual
theorem parseValue_dumps (j : Json) (rest : List Char) (fuel : Nat)
    (hf : jsize j ≤ fuel) (hr : noDigitHead rest = true) :
    parseValue fuel (dumps j ++ rest) = some (j, rest) := by
  have h1 : 1 ≤ fuel := le_trans (jsize_pos j) hf
  obtain ⟨f, rfl⟩ : ∃ f, fuel = f + 1 := ⟨fuel - 1, by omega⟩
  cases j with
  | null => simp [dumps, parseValue]
  | bool b => cases b <;> simp [dumps, parseValue]
  | num n =>
    by_cases hn : n < 0
    · have har : -((n.natAbs : Nat) : Int) = n := by omega
      simp [dumps, intChars, hn, parseValue, parseNatNum_natDigits _ _ hr, har]
      rw [abs_of_neg hn, neg_neg]
    · cases hnd : natDigits n.toNat with
      | nil => exact absurd hnd (natDigits_ne_nil _)
      | cons c0 r0 =>
        have hdig : isDigitChar c0 = true :=
          natDigits_digits n.toNat c0 (by rw [hnd]; simp)
        obtain ⟨_, _, _, _, hn', ht', hf', hq', hlb', hcb', hm'⟩ := digit_facts hdig
        have har : ((n.toNat : Nat) : Int) = n := by omega
        have hrw : c0 :: (r0 ++ rest) = natDigits n.toNat ++ rest := by
          rw [hnd]; simp
        simp only [dumps, intChars, if_neg hn, hnd, List.cons_append]
        simp only [parseValue, if_neg hn', if_neg ht', if_neg hf', if_neg hq',
          if_neg hlb', if_neg hcb', if_neg hm', hdig, if_pos]
        rw [hrw, parseNatNum_natDigits _ _ hr]
        simp [har]
  | str s =>
    have hps := parseStringChars_escBody s.data
      ((escBody s.data).length + (rest.length + 1) + 1) rest
      (by have := escBody_len s.data; omega)
    simp only [dumps, strQuote, List.cons_append, List.append_assoc, List.nil_append,
      List.singleton_append]
    simp [parseValue, hps]
  | arr l =>
    cases l with
    | nil => simp [dumps, parseValue, skipWs, isWsChar]
    | cons x l' =>
      have hfx : jsize x ≤ f := by
        simp only [jsize, lsize] at hf
        have := jsize_pos x
        omega
      have hft : lsize l' + 1 ≤ f := by
        simp only [jsize, lsize] at hf
        have := jsize_pos x
        omega
      have hx := parseValue_dumps x (dumpsArrTail l' ++ (']' :: rest)) f hfx
        (noDigit_arrTail l' rest)
      have ht := parseArrTail_dumps l' rest f hft hr
      obtain ⟨c0, r0, he, hw, hrb, hcb⟩ := dumps_head_facts x
      rw [he] at hx
      simp only [List.cons_append] at hx
      simp only [dumps, he, List.cons_append, List.append_assoc, List.nil_append,
        List.singleton_append]
      simp [parseValue, skipWs_cons hw, hrb, hx, skipWs_arrTail, ht]
  | obj o =>
    cases o with
    | nil => simp [dumps, parseValue, skipWs, isWsChar]
    | cons k v o' =>
      have hfv : jsize v + 1 ≤ f := by
        simp only [jsize, osize] at hf
        omega
      have hft : osize o' + 1 ≤ f := by
        simp only [jsize, osize] at hf
        have := jsize_pos v
        omega
      have hm := parseMember_dumps k v (dumpsObjTail o' ++ ('\x7d' :: rest)) f hfv
        (noDigit_objTail o' rest)
      have ht := parseObjTail_dumps o' rest f hft hr
      rw [dumpsKV_append] at hm
      simp only [dumps, List.cons_append, List.append_assoc, List.nil_append,
        List.singleton_append, dumpsKV_append]
      simp [parseValue, skipWs, isWsChar, hm, skipWs_objTail, ht]

theorem parseMember_dumps (k : String) (v : Json) (rest : List Char) (fuel : Nat)
    (hf : jsize v + 1 ≤ fuel) (hr : noDigitHead rest = true) :
    parseMember fuel (dumpsKV k v ++ rest) = some (k, v, rest) := by
  obtain ⟨f, rfl⟩ : ∃ f, fuel = f + 1 := ⟨fuel - 1, by omega⟩
  have hlen : k.data.length <
      (escBody k.data ++ ('\"' :: ':' :: ' ' :: (dumps v ++ rest))).length + 1 := by
    have := escBody_len k.data
    simp only [List.length_append, List.length_cons]
    omega
  have hps := parseStringChars_escBody k.data _ (':' :: ' ' :: (dumps v ++ rest)) hlen
  have hv := parseValue_dumps v rest f (by omega) hr
  have hsp : skipWs (' ' :: (dumps v ++ rest)) = dumps v ++ rest := by
    simp [skipWs, isWsChar, skipWs_dumps]
  rw [dumpsKV_append]
  simp only [parseMember]
  rw [hps]
  simp [skipWs_cons (show isWsChar ':' = false by decide), hsp, hv]

theorem parseArrTail_dumps (l : JsonList) (rest : List Char) (fuel : Nat)
    (hf : lsize l + 1 ≤ fuel) (hr : noDigitHead rest = true) :
    parseArrTail fuel (dumpsArrTail l ++ (']' :: rest)) = some (l, rest) := by
  obtain ⟨f, rfl⟩ : ∃ f, fuel = f + 1 := ⟨fuel - 1, by omega⟩
  cases l with
  | nil => simp [dumpsArrTail, parseArrTail]
  | cons x l' =>
    have hfx : jsize x ≤ f := by
      simp only [lsize] at hf
      omega
    have hft : lsize l' + 1 ≤ f := by
      simp only [lsize] at hf
      have := jsize_pos x
      omega
    have hx := parseValue_dumps x (dumpsArrTail l' ++ (']' :: rest)) f hfx
      (noDigit_arrTail l' rest)
    have ht := parseArrTail_dumps l' rest f hft hr
    have hsp : skipWs (' ' :: (dumps x ++ (dumpsArrTail l' ++ (']' :: rest)))) =
        dumps x ++ (dumpsArrTail l' ++ (']' :: rest)) := by
      simp [skipWs, isWsChar, skipWs_dumps]
    simp only [dumpsArrTail, List.cons_append, List.append_assoc]
    simp [parseArrTail, hsp, hx, skipWs_arrTail, ht]

theorem parseObjTail_dumps (o : JsonObj) (rest : List Char) (fuel : Nat)
    (hf : osize o + 1 ≤ fuel) (hr : noDigitHead rest = true) :
    parseObjTail fuel (dumpsObjTail o ++ ('\x7d' :: rest)) = some (o, rest) := by
  obtain ⟨f, rfl⟩ : ∃ f, fuel = f + 1 := ⟨fuel - 1, by omega⟩
  cases o with
  | nil => simp [dumpsObjTail, parseObjTail]
  | cons k v o' =>
    have hfv : jsize v + 1 ≤ f := by
      simp only [osize] at hf
      omega
    have hft : osize o' + 1 ≤ f := by
      simp only [osize] at hf
      have := jsize_pos v
      omega
    have hm := parseMember_dumps k v (dumpsObjTail o' ++ ('\x7d' :: rest)) f hfv
      (noDigit_objTail o' rest)
    have ht := parseObjTail_dumps o' rest f hft hr
    have hsp : skipWs (' ' :: (dumpsKV k v ++ (dumpsObjTail o' ++ ('\x7d' :: rest)))) =
        dumpsKV k v ++ (dumpsObjTail o' ++ ('\x7d' :: rest)) := by
      rw [dumpsKV_append]
      simp [skipWs, isWsChar]
    simp only [dumpsObjTail_cons, List.cons_append, List.append_assoc]
    simp [parseObjTail, hsp, hm, skipWs_objTail, ht]
end

theorem loads_dumps (j : Json) : loads (dumps j ++ ['\n']) = some j := by
  have hfuel : jsize j ≤ (dumps j ++ ['\n']).length + 1 := by
    have := jsize_le j
    simp only [List.length_append, List.length_cons, List.length_nil]
    omega
  have hp := parseValue_dumps j ['\n'] ((dumps j ++ ['\n']).length + 1) hfuel (by decide)
  rw [loads, skipWs_dumps, hp]
  simp [skipWs, isWsChar]

theorem decodeLine_encodeFrame (e : String) (p : Json) :
    decodeLine (encodeFrame e p) = some (some (.str e), some p) := by
  rw [encodeFrame, decodeLine, frameJson, loads_dumps]
  simp [objGet]

/-- Python `str.startswith` on whole strings. -/
def pyStartswith (s pre : String) : Bool := pre.data.isPrefixOf s.data

/-! ## Model of the library state (`pynwjs/__init__.py`, `pynwjs/nwjs.py`) -/

/-- One constructor per `raise` site reached by the modelled code paths,
plus the built-in exceptions that can arise. -/
inductive PyErr where
  | duplicateSession   -- RuntimeError, __init__.py:272
  | duplicateInstance  -- RuntimeError, nwjs.py:52
  | notRunning         -- RuntimeError, nwjs.py:46
  | closedWindow       -- RuntimeError, nwjs.py:122
  | spawnFailure       -- ValueError, nwjs.py:63
  | channelInitFailure -- RuntimeError, nwjs.py:106
  | invalidEventName   -- ValueError, __init__.py:125/153/168/201
  | typeError          -- TypeError, __init__.py:49/86
  | attributeError     -- AttributeError (missing attribute)
  | fileMissing        -- OSError from shutil.rmtree on a missing directory
  deriving DecidableEq, Repr

def PyErr.isRuntimeError : PyErr → Bool
  | .duplicateSession => true
  | .duplicateInstance => true
  | .notRunning => true
  | .closedWindow => true
  | .channelInitFailure => true
  | _ => false

def PyErr.isValueError : PyErr → Bool
  | .spawnFailure => true
  | .invalidEventName => true
  | _ => false

/-- `NWJS._events`: a `defaultdict(list)` keyed by event name.  Key insertion
order is preserved; handlers of one key keep registration order. -/
def Registry (H : Type) := List (String × List H)

def regAppend {H : Type} (r : Registry H) (k : String) (h : H) : Registry H :=
  match r with
  | [] => [(k, [h])]
  | (k', hs) :: t => if k' = k then (k', hs ++ [h]) :: t else (k', hs) :: regAppend t k h

def lookupReg {H : Type} (r : Registry H) (k : String) : List H :=
  match r with
  | [] => []
  | (k', hs) :: t => if k' = k then hs else lookupReg t k

/-- `event in NWJS._events`. -/
def regHasKey {H : Type} (r : Registry H) (k : String) : Bool :=
  match r with
  | [] => false
  | (k', _) :: t => k' = k || regHasKey t k

/-- `del NWJS._events[event]`. -/
def regDel {H : Type} (r : Registry H) (k : String) : Registry H :=
  match r with
  | [] => []
  | (k', hs) :: t => if k' = k then t else (k', hs) :: regDel t k

/-- `pynwjs.on` (__init__.py 142-154). -/
def onPy {H : Type} (r : Registry H) (event : String) (cb : H) :
    Registry H × Option PyErr :=
  if pyStartswith event "__" then (r, some .invalidEventName)
  else (regAppend r event cb, none)

/-- `pynwjs.clear` (__init__.py 157-170); `none` models the omitted argument. -/
def clearPy {H : Type} (r : Registry H) (event : Option String) :
    Registry H × Option PyErr :=
  match event with
  | none => ([], none)
  | some e =>
    if pyStartswith e "__" then (r, some .invalidEventName)
    else if regHasKey r e then (regDel r e, none)
    else (r, none)

/-- `pynwjs.add_event_listener` (__init__.py 207-239): registers under the
internal key `'__event__.%s.%s' % (id, event)` with no name validation. -/
def addEventListenerPy {H : Type} (r : Registry H) (id ev : String) (cb : H) :
    Registry H × Option PyErr :=
  (regAppend r ("__event__." ++ id ++ "." ++ ev) cb, none)

/-- The `pynwjs.event_listener` decorator (__init__.py 13-53): validates the
callback arity, then registers under the same internal key family. -/
def eventListenerPy {H : Type} (r : Registry H) (id ev : String) (arity : Nat)
    (varargs : Bool) (cb : H) : Registry H × Option PyErr :=
  if arity ≠ 1 ∧ varargs = false then (r, some .typeError)
  else (regAppend r ("__event__." ++ id ++ "." ++ ev) cb, none)

/-- The mutable attributes of one `NWJS` object.  `none` in `active`/`proc`
models the Python attribute not having been assigned yet. -/
structure Inst where
  active : Option Bool
  tempdir : Nat
  proc : Option Nat
  pipes : Bool
  deriving DecidableEq, Repr

/-- Process-wide state: `NWJS._instance`, `NWJS._events`, and the temporary
directories currently existing on disk. -/
structure PyState (H : Type) where
  inst : Option Inst
  events : Registry H
  disk : List Nat

/-- `NWJS.__init__` (nwjs.py 49-65).  The environment's contributions are
parameters: the fresh directory `mkdtemp` creates, whether `subprocess.Popen`
succeeds, the pid, and whether `_init_pipes` succeeds.  Returns the state
after the call and the exception it raised, if any. -/
def NWJSInit {H : Type} (st : PyState H) (newdir : Nat) (spawnOk : Bool) (pid : Nat)
    (pipesOk : Bool) : PyState H × Option PyErr :=
  if st.inst.isSome then (st, some .duplicateInstance)
  else
    -- NWJS._instance = self; self._tempdir = tempfile.mkdtemp()
    let i0 : Inst := { active := none, tempdir := newdir, proc := none, pipes := false }
    let st0 : PyState H := { st with inst := some i0, disk := newdir :: st.disk }
    if spawnOk = false then
      -- Popen raised OSError: `raise ValueError(...)`; nothing is undone
      (st0, some .spawnFailure)
    else
      let i1 : Inst := { i0 with proc := some pid, active := some true }
      let st1 : PyState H := { st0 with inst := some i1 }
      if pipesOk = false then
        -- _init_pipes failed: it runs self._close() and raises RuntimeError
        let i2 : Inst := { i1 with active := some false }
        ({ st1 with inst := some i2, disk := st1.disk.erase newdir },
          some .channelInitFailure)
      else
        let i3 : Inst := { i1 with pipes := true }
        ({ st1 with inst := some i3 }, none)

/-- Module-level `pynwjs.open` (__init__.py 242-274). -/
def openPy {H : Type} (st : PyState H) (newdir : Nat) (spawnOk : Bool) (pid : Nat)
    (pipesOk : Bool) : PyState H × Option PyErr :=
  if st.inst.isSome then (st, some .duplicateSession)
  else NWJSInit st newdir spawnOk pid pipesOk

/-- `NWJS._close` (nwjs.py 67-90): mark inactive, stop the process (errors
of a dead process swallowed), close the pipes, join the reader, then
`shutil.rmtree(self._tempdir)` — which raises if the directory is gone. -/
def NWJSClose {H : Type} (st : PyState H) (i : Inst) : PyState H × Option PyErr :=
  let i' : Inst := { i with active := some false }
  if i.tempdir ∈ st.disk then
    ({ st with inst := some i', disk := st.disk.erase i.tempdir }, none)
  else ({ st with inst := some i' }, some .fileMissing)

/-- Module-level `pynwjs.close` (__init__.py 286-294). -/
def closePy {H : Type} (st : PyState H) : PyState H × Option PyErr :=
  match st.inst with
  | none => (st, none)
  | some i =>
    match NWJSClose st i with
    | (st', none) => ({ st' with inst := none }, none)
    | (st', some e) => (st', some e)

/-- The attribute names the `NWJS` class body defines (nwjs.py 18-168).
There is no `emit` among them. -/
def NWJSClassAttrs : List String :=
  ["_events", "_instance", "instance", "__init__", "_close", "_init_pipes",
   "_configure_logging", "_set_log_level", "_write", "_wait", "_event_handler",
   "__del__", "__enter__", "__exit__"]

/-- `getattr(NWJS, name)`, as an option. -/
def nwjsGetattr (name : String) : Option Unit :=
  if name ∈ NWJSClassAttrs then some () else none

/-- `NWJS._write` (nwjs.py 120-128): raise on an inactive window, else write
one frame and flush.  Second component: the frames written by the call. -/
def NWJSWrite (i : Inst) (event : String) (data : Json) :
    Option PyErr × List (List Char) :=
  match i.active with
  | none => (some .attributeError, [])
  | some false => (some .closedWindow, [])
  | some true => (none, [encodeFrame event data])

/-- Module-level `pynwjs.emit` (__init__.py 173-204).  Returns the exception
raised (if any) and the frames written to the outbound pipe. -/
def emitPy {H : Type} (st : PyState H) (event : String) (data : Option Json) :
    Option PyErr × List (List Char) :=
  if pyStartswith event "__" then (some .invalidEventName, [])
  else
    match data with
    | none =>
      -- `return functools.partial(NWJS.emit(event))`: evaluates `NWJS.emit`
      match nwjsGetattr "emit" with
      | none => (some .attributeError, [])
      | some _ => (none, [])
    | some d =>
      match st.inst with
      | none => (some .notRunning, [])
      | some i => NWJSWrite i event d

/-- Outcome of one handler invocation. -/
inductive HOut where
  | ok : HOut
  | exn : HOut
  deriving DecidableEq, Repr

/-- The `for callback in callbacks` loop of `NWJS._event_handler`
(nwjs.py 142-143): handlers run in order, each called on the payload; a
raising handler aborts the loop (its exception lands in the `except`).
Returns the invocations `(index, argument)` and whether an exception
escaped the loop. -/
def runCallbacks (hs : List (Json → HOut)) (p : Json) (i : Nat) :
    List (Nat × Json) × Bool :=
  match hs with
  | [] => ([], false)
  | h :: t =>
    match h p with
    | .ok =>
      let q := runCallbacks t p (i + 1)
      ((i, p) :: q.1, q.2)
    | .exn => ([(i, p)], true)

/-- Result of one reader-loop iteration: `halt` models `break`, `cont`
carries whether a warning was logged and the handler invocations made. -/
inductive StepRes where
  | halt : StepRes
  | cont : Bool → List (Nat × Json) → StepRes
  deriving DecidableEq

def StepRes.invoked : StepRes → List (Nat × Json)
  | .halt => []
  | .cont _ tr => tr

/-- One iteration of the reader-loop body of `NWJS._event_handler`
(nwjs.py 136-148), entered with `self._active = active` and the loop
condition satisfied.  `line` is what `readline` returned; `poll` is what
`self._nw.poll()` reports inside the `except` handler. -/
def readerStep (active : Bool) (poll : Option Int) (r : Registry (Json → HOut))
    (line : List Char) : StepRes :=
  match decodeLine line with
  | none =>
    -- json.loads raised, or `.get` on a non-dict raised
    if poll.isSome then .halt
    else .cont (active && !line.isEmpty) []
  | some (ev, pl) =>
    let cbs := match ev with
      | some (Json.str s) => lookupReg r s
      | _ => []   -- a missing or non-string event key: the defaultdict holds no handlers
    let p := pl.getD Json.null
    let q := runCallbacks cbs p 0
    if q.2 then
      if poll.isSome then .halt
      else .cont (active && !line.isEmpty) q.1
    else .cont false q.1

/-! ## Concrete states used by witnesses -/

/-- A state with a healthy open session, one registered handler and the
session's temporary directory on disk. -/
def stOpen : PyState Nat :=
  { inst := some { active := some true, tempdir := 0, proc := some 1, pipes := true },
    events := [("ev", [7])], disk := [0] }

/-- The pristine closed state. -/
def stClosed : PyState Nat :=
  { inst := none, events := [], disk := [] }

/-- A state whose instance survived a close: active flag cleared. -/
def stInactive : PyState Nat :=
  { inst := some { active := some false, tempdir := 0, proc := some 1, pipes := true },
    events := [], disk := [] }

/-! ## Claims -/

/-- C1: while a live instance exists, a second `open` fails with the
duplicate-session `RuntimeError` and returns the module state — instance
attributes, handler registry and disk — entirely unchanged. -/
theorem C1_second_open_rejected {H : Type} (st : PyState H) (i : Inst)
    (hi : st.inst = some i) (newdir : Nat) (spawnOk : Bool) (pid : Nat) (pipesOk : Bool) :
    openPy st newdir spawnOk pid pipesOk = (st, some PyErr.duplicateSession) ∧
    PyErr.duplicateSession.isRuntimeError = true := by
  constructor
  · simp [openPy, hi]
  · rfl

theorem C1_witness :
    openPy stOpen 5 true 2 true = (stOpen, some PyErr.duplicateSession) ∧
    PyErr.duplicateSession.isRuntimeError = true :=
  C1_second_open_rejected stOpen
    { active := some true, tempdir := 0, proc := some 1, pipes := true }
    rfl 5 true 2 true

/-- C3 (code bug witnessed): when the spawn fails, `open` raises the
ValueError from nwjs.py:63, but the temporary directory created at
nwjs.py:55 stays on disk and `NWJS._instance` (set at nwjs.py:53) stays
populated — the session is not returned to the Closed state, contradicting
the claimed full cleanup. -/
theorem C3_spawn_failure_leaks {H : Type} (st : PyState H) (hi : st.inst = none)
    (newdir pid : Nat) (pipesOk : Bool) :
    (openPy st newdir false pid pipesOk).2 = some PyErr.spawnFailure ∧
    PyErr.spawnFailure.isValueError = true ∧
    newdir ∈ (openPy st newdir false pid pipesOk).1.disk ∧
    (openPy st newdir false pid pipesOk).1.inst ≠ none := by
  refine ⟨?_, rfl, ?_, ?_⟩ <;> simp [openPy, NWJSInit, hi]

theorem C3_witness :
    (openPy stClosed 4 false 2 true).2 = some PyErr.spawnFailure ∧
    PyErr.spawnFailure.isValueError = true ∧
    4 ∈ (openPy stClosed 4 false 2 true).1.disk ∧
    (openPy stClosed 4 false 2 true).1.inst ≠ none :=
  C3_spawn_failure_leaks stClosed rfl 4 2 true

/-- C4 (counterexample): the claim quantifies over every event name, but
emitting the sentinel-prefixed event `"__x"` on a closed session raises the
invalid-event-name ValueError, not the closed-session RuntimeError; and with
the payload omitted it raises AttributeError.  Neither is a RuntimeError. -/
theorem C4_counterexample :
    emitPy stClosed "__x" (some Json.null) = (some PyErr.invalidEventName, []) ∧
    PyErr.invalidEventName.isRuntimeError = false ∧
    emitPy stClosed "ev" none = (some PyErr.attributeError, []) ∧
    PyErr.attributeError.isRuntimeError = false := by
  refine ⟨?_, rfl, ?_, rfl⟩ <;> decide

/-- C4 (amended): for an event name not starting with `'__'` and a payload
that is supplied, `emit` while the session is not open (no instance, or the
active flag false) raises a closed-session `RuntimeError` and writes no
frame; the error is raised before any write. -/
theorem C4_emit_closed_no_write {H : Type} (st : PyState H) (event : String) (d : Json)
    (hs : pyStartswith event "__" = false)
    (hcl : st.inst = none ∨ ∃ i, st.inst = some i ∧ i.active = some false) :
    (emitPy st event (some d)).2 = [] ∧
    ∃ e, (emitPy st event (some d)).1 = some e ∧ e.isRuntimeError = true := by
  rcases hcl with hn | ⟨i, hi, ha⟩
  · refine ⟨?_, PyErr.notRunning, ?_, rfl⟩ <;> simp [emitPy, hs, hn]
  · refine ⟨?_, PyErr.closedWindow, ?_, rfl⟩ <;> simp [emitPy, hs, hi, NWJSWrite, ha]

theorem C4_witness :
    ((emitPy stClosed "ev" (some Json.null)).2 = [] ∧
      ∃ e, (emitPy stClosed "ev" (some Json.null)).1 = some e ∧
        e.isRuntimeError = true) ∧
    ((emitPy stInactive "ev" (some Json.null)).2 = [] ∧
      ∃ e, (emitPy stInactive "ev" (some Json.null)).1 = some e ∧
        e.isRuntimeError = true) :=
  ⟨C4_emit_closed_no_write stClosed "ev" Json.null (by decide) (Or.inl rfl),
   C4_emit_closed_no_write stInactive "ev" Json.null (by decide)
     (Or.inr ⟨_, rfl, rfl⟩)⟩

/-- C6: module-level `close` is idempotent: once a close has completed
without raising, a second `close` raises nothing and leaves the state
exactly as the first close left it. -/
theorem C6_close_idempotent {H : Type} (st st' : PyState H)
    (h : closePy st = (st', none)) : closePy st' = (st', none) := by
  have hin : st'.inst = none := by
    cases hst : st.inst with
    | none =>
      simp only [closePy, hst] at h
      cases h
      exact hst
    | some i =>
      simp only [closePy, hst, NWJSClose] at h
      by_cases hd : i.tempdir ∈ st.disk
      · simp only [if_pos hd] at h
        cases h
        rfl
      · simp only [if_neg hd] at h
        have := congrArg Prod.snd h
        simp at this
  rw [closePy, hin]

theorem C6_witness : closePy (closePy stOpen).1 = ((closePy stOpen).1, none) := by
  have h : closePy stOpen = ((closePy stOpen).1, none) := rfl
  exact C6_close_idempotent stOpen (closePy stOpen).1 h

/-- C10: `emit(event)` with the data argument omitted never returns a
callable: for any event not starting with `'__'`, and in any module state,
the `data is None` branch evaluates `NWJS.emit`, an attribute the `NWJS`
class does not define, so an AttributeError is raised. -/
theorem C10_emit_none_attribute {H : Type} (st : PyState H) (event : String)
    (hs : pyStartswith event "__" = false) :
    emitPy st event none = (some PyErr.attributeError, []) ∧
    nwjsGetattr "emit" = none := by
  constructor
  · simp [emitPy, hs, nwjsGetattr, NWJSClassAttrs]
  · decide

theorem C10_witness :
    (emitPy stOpen "ev" none = (some PyErr.attributeError, []) ∧
      nwjsGetattr "emit" = none) ∧
    (emitPy stClosed "ev" none = (some PyErr.attributeError, []) ∧
      nwjsGetattr "emit" = none) :=
  ⟨C10_emit_none_attribute stOpen "ev" (by decide),
   C10_emit_none_attribute stClosed "ev" (by decide)⟩

/-- C2: for every event name not using the reserved sentinel and every
JSON-representable payload, reading back the frame `_write` produces —
`json.loads` on the line, then `.get('event')` and `.get('payload')` —
returns exactly the event (as a JSON string) and the payload. -/
theorem C2_codec_roundtrip (event : String) (payload : Json)
    (hs : pyStartswith event "__" = false) (hw : jsonWf payload = true) :
    decodeLine (encodeFrame event payload) =
      some (some (.str event), some payload) :=
  decodeLine_encodeFrame event payload

theorem C2_witness :
    pyStartswith "ping" "__" = false ∧
    jsonWf (Json.obj (.cons "n" (.num 1) .nil)) = true ∧
    decodeLine (encodeFrame "ping" (Json.obj (.cons "n" (.num 1) .nil))) =
      some (some (.str "ping"), some (Json.obj (.cons "n" (.num 1) .nil))) :=
  ⟨by decide, by decide,
   C2_codec_roundtrip "ping" (Json.obj (.cons "n" (.num 1) .nil)) (by decide) (by decide)⟩

/-- The internal listener key `'__event__.%s.%s' % (id, event)` always starts
with the reserved sentinel. -/
theorem internal_key_sentinel (hid hev : String) :
    pyStartswith ("__event__." ++ hid ++ "." ++ hev) "__" = true := by
  simp [pyStartswith, String.data_append, List.isPrefixOf]

/-- C7: a sentinel-prefixed event name is rejected with the invalid-name
ValueError by `on`, `clear` and `emit`, each leaving the registry untouched,
while `add_event_listener` and the `event_listener` decorator register under
a `'__event__.'` key — itself sentinel-prefixed — without any check. -/
theorem C7_sentinel_reserved {H : Type} (r : Registry H) (e : String) (cb : H)
    (hid hev : String) (st : PyState H) (d : Option Json)
    (he : pyStartswith e "__" = true) :
    onPy r e cb = (r, some PyErr.invalidEventName) ∧
    clearPy r (some e) = (r, some PyErr.invalidEventName) ∧
    emitPy st e d = (some PyErr.invalidEventName, []) ∧
    PyErr.invalidEventName.isValueError = true ∧
    addEventListenerPy r hid hev cb =
      (regAppend r ("__event__." ++ hid ++ "." ++ hev) cb, none) ∧
    eventListenerPy r hid hev 1 false cb =
      (regAppend r ("__event__." ++ hid ++ "." ++ hev) cb, none) ∧
    pyStartswith ("__event__." ++ hid ++ "." ++ hev) "__" = true := by
  refine ⟨?_, ?_, ?_, rfl, rfl, ?_, internal_key_sentinel hid hev⟩
  · simp [onPy, he]
  · simp [clearPy, he]
  · simp [emitPy, he]
  · simp [eventListenerPy]

theorem C7_witness :
    onPy [("ev", [7])] "__x" 3 = ([("ev", [7])], some PyErr.invalidEventName) ∧
    clearPy [("ev", [7])] (some "__x") = ([("ev", [7])], some PyErr.invalidEventName) ∧
    emitPy { stClosed with events := [("ev", [7])] } "__x" none =
      (some PyErr.invalidEventName, []) ∧
    PyErr.invalidEventName.isValueError = true ∧
    addEventListenerPy [("ev", [7])] "btn" "click" 3 =
      (regAppend [("ev", [7])] ("__event__." ++ "btn" ++ "." ++ "click") 3, none) ∧
    eventListenerPy [("ev", [7])] "btn" "click" 1 false 3 =
      (regAppend [("ev", [7])] ("__event__." ++ "btn" ++ "." ++ "click") 3, none) ∧
    pyStartswith ("__event__." ++ "btn" ++ "." ++ "click") "__" = true :=
  C7_sentinel_reserved [("ev", [7])] "__x" 3 "btn" "click"
    { stClosed with events := [("ev", [7])] } none (by decide)

/-! ## Dispatch-order lemmas for the reader loop -/

theorem runCallbacks_all_ok (p : Json) (hs : List (Json → HOut))
    (h : ∀ g ∈ hs, g p = .ok) : ∀ i,
    runCallbacks hs p i = ((List.range hs.length).map (fun k => (i + k, p)), false) := by
  induction hs with
  | nil => intro i; simp [runCallbacks]
  | cons g t ih =>
    intro i
    have hg : g p = .ok := h g (by simp)
    have ih' := ih (fun x hx => h x (by simp [hx])) (i + 1)
    have hfun : (fun k => (i + 1 + k, p)) = (fun k => (i + (k + 1), p)) := by
      funext k
      have he : i + 1 + k = i + (k + 1) := by omega
      rw [he]
    simp [runCallbacks, hg, ih', List.range_succ_eq_map, List.map_map,
      Function.comp, hfun]

theorem runCallbacks_prefix_exn (p : Json) (hs1 : List (Json → HOut))
    (h : Json → HOut) (hs2 : List (Json → HOut))
    (hok : ∀ g ∈ hs1, g p = .ok) (hex : h p = .exn) : ∀ i,
    runCallbacks (hs1 ++ h :: hs2) p i =
      ((List.range hs1.length).map (fun k => (i + k, p)) ++ [(i + hs1.length, p)],
        true) := by
  induction hs1 with
  | nil => intro i; simp [runCallbacks, hex]
  | cons g t ih =>
    intro i
    have hg : g p = .ok := hok g (by simp)
    have ih' := ih (fun x hx => hok x (by simp [hx])) (i + 1)
    have hfun : (fun k => (i + 1 + k, p)) = (fun k => (i + (k + 1), p)) := by
      funext k
      have he : i + 1 + k = i + (k + 1) := by omega
      rw [he]
    have hlen : i + 1 + t.length = i + (t.length + 1) := by omega
    simp [runCallbacks, hg, ih', List.range_succ_eq_map, List.map_map,
      Function.comp, hfun, hlen]

theorem encodeFrame_not_empty (e : String) (p : Json) :
    (encodeFrame e p).isEmpty = false := by
  simp [encodeFrame, List.isEmpty_iff]

/-- C5 (counterexample): with two handlers registered for `"e"`, the first
raising, dispatching one frame invokes only the first handler — the second
is never invoked, though the exception is captured (the loop logs and
continues).  The claim that later handlers still run is false. -/
theorem C5_counterexample :
    readerStep true none [("e", [fun _ => HOut.exn, fun _ => HOut.ok])]
      (encodeFrame "e" Json.null) = .cont true [(0, Json.null)] ∧
    ∀ q ∈ (readerStep true none [("e", [fun _ => HOut.exn, fun _ => HOut.ok])]
      (encodeFrame "e" Json.null)).invoked, q.1 ≠ 1 := by
  constructor <;> decide

/-- C5 (amended): if a handler raises during dispatch, handlers registered
after it are NOT invoked for that frame; the exception is captured inside
the reader loop — a warning is logged and the loop continues (no halt while
the process is alive, no propagation). -/
theorem C5_handler_exception_scope (e : String) (p : Json)
    (hs1 hs2 : List (Json → HOut)) (h : Json → HOut)
    (hok : ∀ g ∈ hs1, g p = .ok) (hex : h p = .exn) :
    readerStep true none [(e, hs1 ++ h :: hs2)] (encodeFrame e p) =
      .cont true ((List.range hs1.length).map (fun k => (k, p)) ++
        [(hs1.length, p)]) ∧
    ∀ q ∈ (readerStep true none [(e, hs1 ++ h :: hs2)]
        (encodeFrame e p)).invoked, q.1 ≤ hs1.length := by
  have hrc := runCallbacks_prefix_exn p hs1 h hs2 hok hex 0
  have hmain : readerStep true none [(e, hs1 ++ h :: hs2)] (encodeFrame e p) =
      .cont true ((List.range hs1.length).map (fun k => (k, p)) ++
        [(hs1.length, p)]) := by
    simp [readerStep, decodeLine_encodeFrame, lookupReg, hrc, encodeFrame_not_empty]
  refine ⟨hmain, ?_⟩
  rw [hmain]
  intro q hq
  simp only [StepRes.invoked, List.mem_append, List.mem_map, List.mem_range,
    List.mem_singleton] at hq
  rcases hq with ⟨k, hk, rfl⟩ | rfl
  · omega
  · omega

theorem C5_amended_witness :
    readerStep true none [("e", [fun _ => HOut.ok] ++ (fun _ => HOut.exn) ::
        [fun _ => HOut.ok])] (encodeFrame "e" Json.null) =
      .cont true ((List.range 1).map (fun k => (k, Json.null)) ++
        [(1, Json.null)]) :=
  (C5_handler_exception_scope "e" Json.null [fun _ => HOut.ok] [fun _ => HOut.ok]
    (fun _ => HOut.exn) (by intro g hg; simp at hg; subst hg; rfl) rfl).1

/-- The registry obtained by registering the handlers in order via `on`. -/
def regOf (e : String) (hs : List (Json → HOut)) : Registry (Json → HOut) :=
  hs.foldl (fun r h => (onPy r e h).1) []

theorem regOf_fold (e : String) (he : pyStartswith e "__" = false) :
    ∀ (hs pre : List (Json → HOut)),
    hs.foldl (fun r h => (onPy r e h).1) [(e, pre)] = [(e, pre ++ hs)] := by
  intro hs
  induction hs with
  | nil => intro pre; simp
  | cons h t ih =>
    intro pre
    simp only [List.foldl_cons]
    rw [show (onPy [(e, pre)] e h).1 = [(e, pre ++ [h])] by simp [onPy, he, regAppend]]
    rw [ih (pre ++ [h])]
    simp

theorem lookupReg_regOf (e : String) (he : pyStartswith e "__" = false)
    (hs : List (Json → HOut)) : lookupReg (regOf e hs) e = hs := by
  cases hs with
  | nil => simp [regOf, lookupReg]
  | cons h t =>
    rw [regOf, List.foldl_cons]
    rw [show (onPy ([] : Registry (Json → HOut)) e h).1 = [(e, [h])] by
      simp [onPy, he, regAppend]]
    rw [regOf_fold e he t [h]]
    simp [lookupReg]

/-- C8 (counterexample): the claim quantifies over every N handlers, but
with two handlers registered via `on` for `"ev"` — the first raising — one
dispatched frame never invokes the second registered handler, so not every
handler is invoked exactly once. -/
theorem C8_counterexample :
    readerStep true none (regOf "ev" [fun _ => HOut.exn, fun _ => HOut.ok])
      (encodeFrame "ev" (Json.num 1)) = .cont true [(0, Json.num 1)] ∧
    ∀ q ∈ (readerStep true none (regOf "ev" [fun _ => HOut.exn, fun _ => HOut.ok])
      (encodeFrame "ev" (Json.num 1))).invoked, q.1 ≠ 1 := by
  constructor <;> decide

/-- C8 (amended): registering N handlers for one event via `on` (in order)
and dispatching one frame carrying that event, provided no handler raises on
that payload, invokes exactly the N handlers, in registration order, each
exactly once, each on the frame's payload.  (A raising handler cuts the
invocation short, cf. C5.) -/
theorem C8_dispatch_in_order (e : String) (p : Json) (hs : List (Json → HOut))
    (hse : pyStartswith e "__" = false) (hwf : jsonWf p = true)
    (hok : ∀ g ∈ hs, g p = .ok) :
    readerStep true none (regOf e hs) (encodeFrame e p) =
      .cont false ((List.range hs.length).map (fun k => (k, p))) := by
  have hcb := lookupReg_regOf e hse hs
  have hrc := runCallbacks_all_ok p hs hok 0
  simp [readerStep, decodeLine_encodeFrame, hcb, hrc]

theorem C8_witness :
    readerStep true none (regOf "ev" [fun _ => HOut.ok, fun _ => HOut.ok])
      (encodeFrame "ev" (Json.num 1)) =
      .cont false ((List.range 2).map (fun k => (k, Json.num 1))) :=
  C8_dispatch_in_order "ev" (Json.num 1) [fun _ => HOut.ok, fun _ => HOut.ok]
    (by decide) (by decide)
    (by intro g hg; simp at hg; rcases hg with rfl | rfl <;> rfl)

/-- C9 (counterexample): a well-formed JSON object line that merely lacks
the `'event'` field does not make decoding fail: the frame is dispatched to
the absent key (no registered handlers), nothing is raised or logged, and
the loop continues. -/
theorem C9_counterexample :
    loads ("\x7b\"payload\": 1\x7d\n".data) =
      some (Json.obj (.cons "payload" (.num 1) .nil)) ∧
    readerStep true none [] ("\x7b\"payload\": 1\x7d\n".data) = .cont false [] := by
  constructor <;> decide

/-- C9 (amended): a line that is malformed JSON raises, the failure is
caught per line — logged and the loop continues — unless the process has
exited, in which case the loop breaks; a parsed object lacking the `'event'`
field raises nothing and dispatches to the missing key, invoking no
handler. -/
theorem C9_decode_failures :
    (∀ (r : Registry (Json → HOut)) (c0 : Char) (t : List Char) (c : Int),
      loads (c0 :: t) = none →
      readerStep true none r (c0 :: t) = .cont true [] ∧
      readerStep true (some c) r (c0 :: t) = .halt) ∧
    (∀ (r : Registry (Json → HOut)) (o : JsonObj) (line : List Char),
      loads line = some (.obj o) → objGet o "event" = none →
      readerStep true none r line = .cont false []) := by
  constructor
  · intro r c0 t c hl
    constructor <;> simp [readerStep, decodeLine, hl]
  · intro r o line hl he
    simp [readerStep, decodeLine, hl, he, runCallbacks]

theorem C9_witness :
    (readerStep true none [] ("x\n".data) = .cont true [] ∧
      readerStep true (some 0) [] ("x\n".data) = .halt) ∧
    readerStep true none [] ("\x7b\"a\": 1\x7d\n".data) = .cont false [] := by
  obtain ⟨ha, hb⟩ := C9_decode_failures
  exact ⟨ha [] 'x' ['\n'] 0 (by decide),
    hb [] (.cons "a" (.num 1) .nil) ("\x7b\"a\": 1\x7d\n".data) (by decide) (by decide)⟩

end PyNWJS
